import Mathlib

set_option maxRecDepth 8000

/-!
Verification of the Discord Community Information Lookup repository
(`dcil.py` and `analyze_communities.py`) against its natural-language
specification.  The Python source is shallowly embedded: Python `int`
becomes `Int`, Python `float` arithmetic on the derived metrics becomes
exact rational arithmetic (`ℚ`), Python exceptions become `Except PyErr`,
strings are Lean `String`s manipulated through their character lists
(which matches Python's sequence semantics for `split`, `strip`,
`startswith`).
-/

namespace DCIL

/-- Equality of embedded Python outcomes is decidable, so concrete runs
can be checked by `decide`. -/
instance {ε α : Type} [DecidableEq ε] [DecidableEq α] :
    DecidableEq (Except ε α) := fun x y =>
  match x, y with
  | .ok a, .ok b =>
    if h : a = b then .isTrue (h ▸ rfl)
    else .isFalse (fun hh => h (Except.ok.inj hh))
  | .error a, .error b =>
    if h : a = b then .isTrue (h ▸ rfl)
    else .isFalse (fun hh => h (Except.error.inj hh))
  | .ok _, .error _ => .isFalse (fun hh => Except.noConfusion hh)
  | .error _, .ok _ => .isFalse (fun hh => Except.noConfusion hh)

/-- Python exceptions that the embedded code can raise.
`keyError f` models `KeyError(f)` from a `dict` access (pandas raises the
same for a missing column), `valueError s` models `ValueError` from
`int(s)`, `zeroDivision` models `ZeroDivisionError`, and
`fetchFailed code` models the `Exception` raised by
`scrape_discord_community` on a non-200 HTTP status. -/
inductive PyErr where
  | keyError (field : String)
  | valueError (s : String)
  | zeroDivision
  | fetchFailed (status : Int)
deriving DecidableEq

/-- The dictionary returned by `load_data_from_file`: the five parsed
fields plus the two derived metrics computed at lines 43-44 of
`analyze_communities.py`.  `community_name` and `link` are `Option`s
because the Python dict simply lacks those keys when no matching line
occurred (no error is raised for them inside `load_data_from_file`). -/
structure Record where
  community_name : Option String
  link : Option String
  active_members : Int
  offline_members : Int
  total_members : Int
  engagement_rate : ℚ
  active_ratio : ℚ
deriving DecidableEq

/-- Python `str.split(":")`: split on every occurrence of the colon,
keeping empty pieces. -/
def splitOnColon : List Char → List (List Char)
  | [] => [[]]
  | c :: rest =>
    if c = ':' then [] :: splitOnColon rest
    else
      match splitOnColon rest with
      | [] => [[c]]
      | p :: ps => (c :: p) :: ps

/-- Python `str.strip()`: drop whitespace from both ends. -/
def pyStrip (cs : List Char) : List Char :=
  ((cs.dropWhile Char.isWhitespace).reverse.dropWhile Char.isWhitespace).reverse

/-- Python `str.startswith(lab)`. -/
def pyStartsWith (line lab : String) : Bool :=
  lab.data.isPrefixOf line.data

/-- `line.split(":")[1].strip()` — the value-extraction expression used on
every recognized line of `load_data_from_file`.  Note the `[1]`: the piece
between the first and the second colon of the line (Python's `split`
splits on every colon).  The list index `[1]` always exists on the lines
it is applied to, because they start with a label that contains a colon;
`getD` supplies an irrelevant default. -/
def colonField (line : String) : String :=
  String.mk (pyStrip ((splitOnColon line.data).getD 1 []))

/-- One step of Python `int(s)` digit accumulation. -/
def pyDigits : List Char → Option Nat
  | [] => some 0
  | c :: rest =>
    if c.isDigit then
      (pyDigits rest).map (fun n => (c.toNat - 48) * 10 ^ rest.length + n)
    else none

/-- Python `int(s)` on an already-stripped string: an optional sign
followed by at least one decimal digit; anything else raises
`ValueError`. -/
def pyInt (s : String) : Except PyErr Int :=
  let signSplit : Bool × List Char :=
    match s.data with
    | '-' :: rest => (true, rest)
    | '+' :: rest => (false, rest)
    | cs => (false, cs)
  match signSplit with
  | (neg, ds) =>
    if ds.isEmpty then .error (.valueError s)
    else
      match pyDigits ds with
      | none => .error (.valueError s)
      | some n => .ok (if neg then -(n : Int) else (n : Int))

/-- The mutable dict `data` being filled by the line loop of
`load_data_from_file` (lines 27-40): each key is absent until a line with
the matching label has been processed. -/
structure PData where
  community_name : Option String := none
  link : Option String := none
  active_members : Option Int := none
  offline_members : Option Int := none
  total_members : Option Int := none
deriving DecidableEq

/-- The body of the `for line in lines` loop of `load_data_from_file`:
the `if/elif` chain on `line.startswith(...)` in source order; numeric
labels go through `int(...)`, whose `ValueError` aborts the whole call.
Unrecognized lines leave the dict unchanged. -/
def applyLine (d : PData) (line : String) : Except PyErr PData :=
  if pyStartsWith line "Community Name:" then
    .ok { d with community_name := some (colonField line) }
  else if pyStartsWith line "Community Link:" then
    .ok { d with link := some (colonField line) }
  else if pyStartsWith line "Total Active Members:" then
    match pyInt (colonField line) with
    | .error e => .error e
    | .ok n => .ok { d with active_members := some n }
  else if pyStartsWith line "Total Offline Members:" then
    match pyInt (colonField line) with
    | .error e => .error e
    | .ok n => .ok { d with offline_members := some n }
  else if pyStartsWith line "Total Members:" then
    match pyInt (colonField line) with
    | .error e => .error e
    | .ok n => .ok { d with total_members := some n }
  else .ok d

/-- The whole line loop of `load_data_from_file`. -/
def scanLines (lines : List String) : Except PyErr PData :=
  lines.foldlM applyLine {}

/-- Lines 43-44 of `load_data_from_file`, in Python evaluation order:
line 43 first evaluates the condition `data['total_members'] > 0`
(`KeyError` if absent), then, only when it is true, the expression
`data['active_members'] / data['total_members'] * 100`; line 44 then
evaluates `data['active_members'] / (data['offline_members'] + 1)`, which
divides by zero when `offline_members == -1`. -/
def finishLoad (d : PData) : Except PyErr Record :=
  match d.total_members with
  | none => .error (.keyError "total_members")
  | some t =>
    match (if t > 0 then
             match d.active_members with
             | none => Except.error (PyErr.keyError "active_members")
             | some a => Except.ok ((a : ℚ) / (t : ℚ) * 100)
           else Except.ok (0 : ℚ)) with
    | .error e => .error e
    | .ok eng =>
      match d.active_members with
      | none => .error (.keyError "active_members")
      | some a =>
        match d.offline_members with
        | none => .error (.keyError "offline_members")
        | some o =>
          if o + 1 = 0 then .error .zeroDivision
          else
            .ok { community_name := d.community_name, link := d.link,
                  active_members := a, offline_members := o,
                  total_members := t, engagement_rate := eng,
                  active_ratio := (a : ℚ) / ((o : ℚ) + 1) }

/-- `load_data_from_file`, with the file already materialized as its list
of lines (Python's `readlines`; the trailing `"\n"` each raw line carries
is immaterial: `strip` removes it and neither `startswith` nor the
`split(":")[1]` piece selection is affected by it). -/
def load_data_from_lines (lines : List String) : Except PyErr Record :=
  scanLines lines >>= finishLoad

/-- pandas `Series.rank(ascending=False)` with the default
`method='average'`, as invoked at lines 66-68 of
`analyze_communities.py`: a row whose value is `x` receives the count of
strictly larger values plus the average of the 1-based positions its tie
block occupies among equals, i.e. `#\x7by : x < y\x7d + (#\x7by : y = x\x7d + 1) / 2`.
The rank depends only on the multiset of column values. -/
def rank_desc (vals : List ℚ) (x : ℚ) : ℚ :=
  ((vals.countP fun y => decide (x < y)) : ℚ) +
    (((vals.countP fun y => decide (y = x)) : ℚ) + 1) / 2

/-- One row of the dataframe built by `analyze_communities` after the
three rank columns have been added. -/
structure RankedRecord where
  record : Record
  size_rank : ℚ
  engagement_rank : ℚ
  activity_rank : ℚ
deriving DecidableEq

/-- The three rank columns attached to one row, each computed from the
full column of the respective metric (lines 66-68 of
`analyze_communities.py`). -/
def rankOf (recs : List Record) (r : Record) : RankedRecord :=
  { record := r,
    size_rank := rank_desc (recs.map fun s => ((s.total_members : ℚ))) (r.total_members : ℚ),
    engagement_rank := rank_desc (recs.map Record.engagement_rate) r.engagement_rate,
    activity_rank := rank_desc (recs.map Record.active_ratio) r.active_ratio }

/-- `df['size_rank'] = ...; df['engagement_rank'] = ...;
df['activity_rank'] = ...` applied to every row. -/
def add_rankings (recs : List Record) : List RankedRecord :=
  recs.map (rankOf recs)

/-- The `communities_data` list built by `analyze_communities`.  A
directory is its `listdir` listing: pairs of a file name and that file's
lines; only names ending in `.txt` are loaded.  A single file is its list
of lines.  Parse exceptions propagate (the Python has no `try` here). -/
def collect_records (directory : Option (List (String × List String)))
    (file : Option (List String)) : Except PyErr (List Record) :=
  match directory with
  | some files =>
    (files.filter fun f => f.1.endsWith ".txt").mapM fun f =>
      load_data_from_lines f.2
  | none =>
    match file with
    | some lines => do
      let r ← load_data_from_lines lines
      pure [r]
    | none => pure ([] : List Record)

/-- `analyze_communities(directory, file)`: build `communities_data`,
turn it into a dataframe, and add the three rank columns.  When no record
was collected, `pd.DataFrame([])` has no `total_members` column and the
ranking line raises `KeyError('total_members')`. -/
def analyze_communities (directory : Option (List (String × List String)))
    (file : Option (List String)) : Except PyErr (List RankedRecord) := do
  let records ← collect_records directory file
  if records.isEmpty then Except.error (PyErr.keyError "total_members")
  else pure (add_rankings records)

/-- Which report generator `main` invokes. -/
inductive Mode where
  | single
  | competitive
deriving DecidableEq

/-- Outcome of one `main` invocation of `analyze_communities.py`. -/
inductive MainResult where
  | usage
  | err (e : PyErr)
  | report (m : Mode) (recs : List RankedRecord)
deriving DecidableEq

/-- `main()` of `analyze_communities.py`: prints usage when `-u` is given
or neither `-d` nor `-f` is; otherwise runs `analyze_communities` and
then chooses the report shape from `is_single_community = bool(args.f)` —
the competitive report is generated exactly when `-f` is absent, the
single-community path exactly when `-f` is present. -/
def main_run (d : Option (List (String × List String)))
    (f : Option (List String)) (u : Bool) : MainResult :=
  if u || (d.isNone && f.isNone) then .usage
  else
    match analyze_communities d f with
    | .error e => .err e
    | .ok recs => .report (if f.isSome then .single else .competitive) recs

/-- The dict returned by `scrape_discord_community` in `dcil.py`: the
five raw fields, before any derived metric exists. -/
structure RawInfo where
  community_name : String
  link : String
  active_members : Int
  offline_members : Int
  total_members : Int
deriving DecidableEq

/-- The fields Discord's invite API response contributes to
`scrape_discord_community` (`data['guild']['name']`,
`data['approximate_member_count']`,
`data['approximate_presence_count']`). -/
structure InvitePayload where
  guild_name : String
  approximate_member_count : Int
  approximate_presence_count : Int
deriving DecidableEq

/-- The record `scrape_discord_community` builds from a successful
response: `offline_members = total_members - active_members`
(lines 55-65 of `dcil.py`). -/
def scrape_result (link : String) (p : InvitePayload) : RawInfo :=
  { community_name := p.guild_name,
    link := link,
    active_members := p.approximate_presence_count,
    offline_members := p.approximate_member_count - p.approximate_presence_count,
    total_members := p.approximate_member_count }

/-- `scrape_discord_community(link)`.  The two external effects — the
regex search for the invite code and the HTTP request — are passed in as
data: `inviteMatch` is the result of `re.search` on the link (`none`
raises the `ValueError` of line 39), `status` is the HTTP status code
(anything but 200 raises the `Exception` of line 51), and `p` is the
decoded JSON payload. -/
def scrape_discord_community (link : String) (inviteMatch : Option String)
    (status : Int) (p : InvitePayload) : Except PyErr RawInfo :=
  match inviteMatch with
  | none => .error (.valueError "Invalid Discord invite link format")
  | some _ =>
    if status ≠ 200 then .error (.fetchFailed status)
    else .ok (scrape_result link p)

/-- `format_report(info)` of `dcil.py`: the persisted text block, one
`Label: value` line per field, joined with newlines. -/
def format_report (info : RawInfo) : String :=
  String.intercalate "\n"
    ["Community Name: " ++ info.community_name,
     "Community Link: " ++ info.link,
     "Total Active Members: " ++ toString info.active_members,
     "Total Offline Members: " ++ toString info.offline_members,
     "Total Members: " ++ toString info.total_members]

/-- Splitting a persisted report back into its lines, as `readlines` does
when the saved file is re-read (the retained `"\n"` terminators are
immaterial to the parser, see `load_data_from_lines`). -/
def reportLines (s : String) : List String :=
  s.splitOn "\n"

/-- A ratio printed by the single-community report: either a finite value
or the `float('inf')` sentinel of lines 196-202. -/
inductive RatioVal where
  | fin (q : ℚ)
  | infinite
deriving DecidableEq

/-- The numeric content of `activity_ratio_report.txt`. -/
structure ActivityRatioReport where
  name : Option String
  total : Int
  active : Int
  offline : Int
  engagement : ℚ
  inactive_per_active : RatioVal
  active_per_inactive : RatioVal
  pct_active : ℚ
  pct_inactive : ℚ
deriving DecidableEq

/-- The activity-ratio section of
`generate_single_community_visualizations` (lines 195-221 of
`analyze_communities.py`), applied to the single record `df.iloc[0]`.
The two cross-ratios are guarded (`float('inf')` when the denominator is
zero), but the two Key-Findings percentages divide by
`total_members` with no guard, so `total_members == 0` raises
`ZeroDivisionError` before any report text is written. -/
def generate_single_community_report (r : Record) :
    Except PyErr ActivityRatioReport :=
  let ati : RatioVal :=
    if r.offline_members > 0 then
      .fin ((r.active_members : ℚ) / (r.offline_members : ℚ))
    else .infinite
  let ita : RatioVal :=
    if r.active_members > 0 then
      .fin ((r.offline_members : ℚ) / (r.active_members : ℚ))
    else .infinite
  if r.total_members = 0 then .error .zeroDivision
  else
    .ok { name := r.community_name, total := r.total_members,
          active := r.active_members, offline := r.offline_members,
          engagement := r.engagement_rate,
          inactive_per_active := ita, active_per_inactive := ati,
          pct_active := (r.active_members : ℚ) / (r.total_members : ℚ) * 100,
          pct_inactive := (r.offline_members : ℚ) / (r.total_members : ℚ) * 100 }

/-- `lines.all` check that no line carries the given label. -/
def noLabel (lines : List String) (lab : String) : Bool :=
  lines.all fun l => !(pyStartsWith l lab)

/-- Looking a field name up in the parse dict. -/
def fieldOf (d : PData) (f : String) : Option Int :=
  if f = "active_members" then d.active_members
  else if f = "offline_members" then d.offline_members
  else if f = "total_members" then d.total_members
  else none

/-! ### Concrete inputs used to exercise the theorems -/

/-- A well-formed persisted record, as `format_report` writes it for a
link without a second colon. -/
def exLinesA : List String :=
  ["Community Name: A", "Community Link: discord.gg/a",
   "Total Active Members: 10", "Total Offline Members: 20",
   "Total Members: 30"]

/-- The record `load_data_from_lines exLinesA` produces. -/
def exRecordA : Record :=
  { community_name := some "A", link := some "discord.gg/a",
    active_members := 10, offline_members := 20, total_members := 30,
    engagement_rate := 100 / 3, active_ratio := 10 / 21 }

/-- The ranked row a singleton record set gives `exRecordA`. -/
def exRankedA : RankedRecord :=
  { record := exRecordA, size_rank := 1, engagement_rank := 1,
    activity_rank := 1 }

/-- Scenario A of the specification, first record: 100 total, 50 active. -/
def scR1 : Record :=
  { community_name := some "A", link := none, active_members := 50,
    offline_members := 50, total_members := 100,
    engagement_rate := 50, active_ratio := 50 / 51 }

/-- Scenario A, second record: 50 total, 25 active. -/
def scR2 : Record :=
  { community_name := some "B", link := none, active_members := 25,
    offline_members := 25, total_members := 50,
    engagement_rate := 50, active_ratio := 25 / 26 }

/-- Scenario A, third record: 50 total, 10 active. -/
def scR3 : Record :=
  { community_name := some "C", link := none, active_members := 10,
    offline_members := 40, total_members := 50,
    engagement_rate := 20, active_ratio := 10 / 41 }

/-- Scenario A's record set. -/
def scSet : List Record := [scR1, scR2, scR3]

/-- A permutation of Scenario A's record set. -/
def scSetPerm : List Record := [scR3, scR1, scR2]

/-! ### The specification's reading of ranking: positions in sorted order -/

instance : IsTotal ℚ fun a b => b ≤ a := ⟨fun a b => le_total b a⟩

instance : IsTrans ℚ fun a b => b ≤ a := ⟨fun _ _ _ hab hbc => le_trans hbc hab⟩

/-- The 1-based positions (counting from `p + 1`) at which the value `x`
occurs in the list. -/
def posAux (x : ℚ) : List ℚ → ℕ → List ℕ
  | [], _ => []
  | a :: t, p => if a = x then (p + 1) :: posAux x t (p + 1) else posAux x t (p + 1)

/-- The rank the specification describes: sort the column descending and
give every member of the tie block of `x` the mean of the 1-based
positions that block occupies in the sorted order. -/
def specMeanRank (vals : List ℚ) (x : ℚ) : ℚ :=
  let s := vals.insertionSort fun a b => b ≤ a
  let ps := posAux x s 0
  ((ps.map fun k => ((k : ℕ) : ℚ)).sum) / ((ps.length : ℕ) : ℚ)

theorem posAux_length (x : ℚ) :
    ∀ (s : List ℚ) (p : ℕ),
      (posAux x s p).length = s.countP fun y => decide (y = x) := by
  intro s
  induction s with
  | nil => intro p; simp [posAux]
  | cons a t ih =>
    intro p
    rw [List.countP_cons]
    by_cases hax : a = x
    · simp [posAux, hax, ih]
    · simp [posAux, hax, ih]

/-- In a descending-sorted list, twice the sum of the positions at which
`x` occurs (positions counted from `p + 1`) is
`2·e·(p + g) + e·(e + 1)`, where `g` counts the values above `x` and `e`
the values equal to `x`: the occurrences of `x` sit exactly at positions
`p + g + 1, …, p + g + e`. -/
theorem posAux_sum (x : ℚ) :
    ∀ (s : List ℚ), s.Sorted (fun a b => b ≤ a) → ∀ (p : ℕ),
      2 * ((posAux x s p).map fun k => ((k : ℕ) : ℚ)).sum =
        2 * ((s.countP fun y => decide (y = x) : ℕ) : ℚ) *
            ((p : ℚ) + ((s.countP fun y => decide (x < y) : ℕ) : ℚ)) +
          ((s.countP fun y => decide (y = x) : ℕ) : ℚ) *
            (((s.countP fun y => decide (y = x) : ℕ) : ℚ) + 1) := by
  intro s
  induction s with
  | nil => intro _ p; simp [posAux]
  | cons a t ih =>
    intro hs p
    rw [List.sorted_cons] at hs
    obtain ⟨ha, ht⟩ := hs
    have iht := ih ht (p + 1)
    rcases lt_trichotomy x a with hxa | hxa | hxa
    · -- the head is strictly above x
      have hne : a ≠ x := ne_of_gt hxa
      rw [List.countP_cons, List.countP_cons]
      simp only [posAux, hne, if_false, decide_eq_true_eq, hxa, if_true,
        hne, decide_eq_false hne]
      push_cast
      push_cast at iht
      linear_combination iht
    · -- the head equals x; everything below it is ≤ x
      subst hxa
      have hg : (t.countP fun y => decide (x < y)) = 0 := by
        rw [List.countP_eq_zero]
        intro y hy
        simpa using not_lt.mpr (ha y hy)
      have hgc : ((x :: t).countP fun y => decide (x < y)) = 0 := by
        rw [List.countP_cons, hg]
        simp
      rw [List.countP_cons, hgc]
      simp only [posAux, if_pos rfl, decide_eq_true_eq, if_true,
        List.map_cons, List.sum_cons]
      rw [hg] at iht
      push_cast
      push_cast at iht
      linear_combination iht
    · -- the head is strictly below x, hence so is the whole tail
      have hne : a ≠ x := ne_of_lt hxa
      have hg : (t.countP fun y => decide (x < y)) = 0 := by
        rw [List.countP_eq_zero]
        intro y hy
        have : y < x := lt_of_le_of_lt (ha y hy) hxa
        simpa using not_lt.mpr this.le
      have he : (t.countP fun y => decide (y = x)) = 0 := by
        rw [List.countP_eq_zero]
        intro y hy
        have : y < x := lt_of_le_of_lt (ha y hy) hxa
        simpa using ne_of_lt this
      rw [List.countP_cons, List.countP_cons, hg, he]
      simp only [posAux, hne, if_false, decide_eq_false hne,
        decide_eq_true_eq, not_lt.mpr hxa.le]
      rw [he] at iht
      push_cast
      push_cast at iht
      linear_combination iht

/-- The pandas average rank used by the code coincides with the
specification's mean of the sorted positions of the tie block, for every
value that occurs in the column. -/
theorem rank_desc_eq_specMeanRank (vals : List ℚ) (x : ℚ) (hx : x ∈ vals) :
    rank_desc vals x = specMeanRank vals x := by
  have hperm : List.Perm (vals.insertionSort fun a b => b ≤ a) vals :=
    List.perm_insertionSort _ _
  have hsort : List.Sorted (fun a b => b ≤ a)
      (vals.insertionSort fun a b => b ≤ a) :=
    List.sorted_insertionSort _ _
  have hsum := posAux_sum x _ hsort 0
  have hlen := posAux_length x (vals.insertionSort fun a b => b ≤ a) 0
  have hg : ((vals.insertionSort fun a b => b ≤ a).countP fun y => decide (x < y)) =
      vals.countP fun y => decide (x < y) := hperm.countP_eq _
  have he : ((vals.insertionSort fun a b => b ≤ a).countP fun y => decide (y = x)) =
      vals.countP fun y => decide (y = x) := hperm.countP_eq _
  have hepos : 0 < vals.countP fun y => decide (y = x) := by
    rw [List.countP_pos_iff]
    exact ⟨x, hx, by simp⟩
  rw [hg, he] at hsum
  rw [he] at hlen
  have heq : ((vals.countP fun y => decide (y = x) : ℕ) : ℚ) ≠ 0 := by
    exact_mod_cast hepos.ne'
  unfold rank_desc specMeanRank
  dsimp only
  rw [hlen]
  rw [eq_div_iff heq]
  push_cast at hsum ⊢
  linear_combination -hsum / 2

/-! ### Structural lemmas about the parser -/

/-- A successful parse factors through a successful line scan. -/
theorem load_ok_elim (lines : List String) (r : Record)
    (h : load_data_from_lines lines = .ok r) :
    ∃ d, scanLines lines = .ok d ∧ finishLoad d = .ok r := by
  unfold load_data_from_lines at h
  cases hs : scanLines lines with
  | error e => rw [hs] at h; simp [Bind.bind, Except.bind] at h
  | ok d =>
    rw [hs] at h
    simp only [Bind.bind, Except.bind] at h
    exact ⟨d, rfl, h⟩

/-- What `finishLoad` guarantees about a record it returns: the three
numeric fields were present in the dict, and the two derived metrics are
exactly the expressions of lines 43-44 of `analyze_communities.py`
evaluated on those fields. -/
theorem finishLoad_ok_spec (d : PData) (r : Record)
    (h : finishLoad d = .ok r) :
    d.total_members = some r.total_members ∧
      d.active_members = some r.active_members ∧
      d.offline_members = some r.offline_members ∧
      d.community_name = r.community_name ∧
      d.link = r.link ∧
      r.offline_members + 1 ≠ 0 ∧
      r.engagement_rate =
        (if r.total_members > 0 then
          (r.active_members : ℚ) / (r.total_members : ℚ) * 100
        else 0) ∧
      r.active_ratio = (r.active_members : ℚ) / ((r.offline_members : ℚ) + 1) := by
  unfold finishLoad at h
  cases htm : d.total_members with
  | none => rw [htm] at h; simp at h
  | some t =>
    rw [htm] at h
    cases ham : d.active_members with
    | none =>
      rw [ham] at h
      by_cases h0 : t > 0 <;> simp [h0] at h
    | some a =>
      rw [ham] at h
      cases hom : d.offline_members with
      | none =>
        rw [hom] at h
        by_cases h0 : t > 0 <;> simp [h0] at h
      | some o =>
        rw [hom] at h
        by_cases ho1 : o + 1 = 0
        · by_cases h0 : t > 0 <;> simp [h0, ho1] at h
        · by_cases h0 : t > 0
          · simp only [h0, if_true, if_false, ho1, ite_false, ite_true] at h
            cases h
            simp_all
          · simp only [h0, if_true, if_false, ho1, ite_false, ite_true] at h
            cases h
            simp_all
            rw [if_neg (by omega)]

/-- A line that does not start with `Total Active Members:` never changes
the `active_members` entry of the dict. -/
theorem applyLine_ok_active (d : PData) (line : String) (d2 : PData)
    (h : applyLine d line = .ok d2)
    (hno : pyStartsWith line "Total Active Members:" = false) :
    d2.active_members = d.active_members := by
  unfold applyLine at h
  split_ifs at h with h1 h2 h3 h4 h5
  · injection h with h; subst h; rfl
  · injection h with h; subst h; rfl
  · exact absurd h3 (by simp [hno])
  · cases hpi : pyInt (colonField line) with
    | error e => rw [hpi] at h; simp at h
    | ok n => rw [hpi] at h; injection h with h; subst h; rfl
  · cases hpi : pyInt (colonField line) with
    | error e => rw [hpi] at h; simp at h
    | ok n => rw [hpi] at h; injection h with h; subst h; rfl
  · injection h with h; subst h; rfl

/-- A line that does not start with `Total Offline Members:` never
changes the `offline_members` entry of the dict. -/
theorem applyLine_ok_offline (d : PData) (line : String) (d2 : PData)
    (h : applyLine d line = .ok d2)
    (hno : pyStartsWith line "Total Offline Members:" = false) :
    d2.offline_members = d.offline_members := by
  unfold applyLine at h
  split_ifs at h with h1 h2 h3 h4 h5
  · injection h with h; subst h; rfl
  · injection h with h; subst h; rfl
  · cases hpi : pyInt (colonField line) with
    | error e => rw [hpi] at h; simp at h
    | ok n => rw [hpi] at h; injection h with h; subst h; rfl
  · exact absurd h4 (by simp [hno])
  · cases hpi : pyInt (colonField line) with
    | error e => rw [hpi] at h; simp at h
    | ok n => rw [hpi] at h; injection h with h; subst h; rfl
  · injection h with h; subst h; rfl

/-- A line that does not start with `Total Members:` never changes the
`total_members` entry of the dict. -/
theorem applyLine_ok_total (d : PData) (line : String) (d2 : PData)
    (h : applyLine d line = .ok d2)
    (hno : pyStartsWith line "Total Members:" = false) :
    d2.total_members = d.total_members := by
  unfold applyLine at h
  split_ifs at h with h1 h2 h3 h4 h5
  · injection h with h; subst h; rfl
  · injection h with h; subst h; rfl
  · cases hpi : pyInt (colonField line) with
    | error e => rw [hpi] at h; simp at h
    | ok n => rw [hpi] at h; injection h with h; subst h; rfl
  · cases hpi : pyInt (colonField line) with
    | error e => rw [hpi] at h; simp at h
    | ok n => rw [hpi] at h; injection h with h; subst h; rfl
  · exact absurd h5 (by simp [hno])
  · injection h with h; subst h; rfl

/-- Folding the line loop over lines none of which carries the
`Total Active Members:` label leaves `active_members` untouched. -/
theorem scan_preserves_active :
    ∀ (lines : List String) (d d2 : PData),
      noLabel lines "Total Active Members:" = true →
      lines.foldlM applyLine d = .ok d2 →
      d2.active_members = d.active_members := by
  intro lines
  induction lines with
  | nil =>
    intro d d2 _ h
    simp only [List.foldlM_nil] at h
    injection h with h; subst h; rfl
  | cons a t ih =>
    intro d d2 hall h
    rw [noLabel, List.all_cons] at hall
    rw [Bool.and_eq_true] at hall
    obtain ⟨h1, h2⟩ := hall
    rw [List.foldlM_cons] at h
    cases hap : applyLine d a with
    | error e => rw [hap] at h; simp [Bind.bind, Except.bind] at h
    | ok d1 =>
      rw [hap] at h
      simp only [Bind.bind, Except.bind] at h
      have hp := applyLine_ok_active d a d1 hap (by simpa using h1)
      rw [ih d1 d2 h2 h, hp]

/-- Folding the line loop over lines none of which carries the
`Total Offline Members:` label leaves `offline_members` untouched. -/
theorem scan_preserves_offline :
    ∀ (lines : List String) (d d2 : PData),
      noLabel lines "Total Offline Members:" = true →
      lines.foldlM applyLine d = .ok d2 →
      d2.offline_members = d.offline_members := by
  intro lines
  induction lines with
  | nil =>
    intro d d2 _ h
    simp only [List.foldlM_nil] at h
    injection h with h; subst h; rfl
  | cons a t ih =>
    intro d d2 hall h
    rw [noLabel, List.all_cons] at hall
    rw [Bool.and_eq_true] at hall
    obtain ⟨h1, h2⟩ := hall
    rw [List.foldlM_cons] at h
    cases hap : applyLine d a with
    | error e => rw [hap] at h; simp [Bind.bind, Except.bind] at h
    | ok d1 =>
      rw [hap] at h
      simp only [Bind.bind, Except.bind] at h
      have hp := applyLine_ok_offline d a d1 hap (by simpa using h1)
      rw [ih d1 d2 h2 h, hp]

/-- Folding the line loop over lines none of which carries the
`Total Members:` label leaves `total_members` untouched. -/
theorem scan_preserves_total :
    ∀ (lines : List String) (d d2 : PData),
      noLabel lines "Total Members:" = true →
      lines.foldlM applyLine d = .ok d2 →
      d2.total_members = d.total_members := by
  intro lines
  induction lines with
  | nil =>
    intro d d2 _ h
    simp only [List.foldlM_nil] at h
    injection h with h; subst h; rfl
  | cons a t ih =>
    intro d d2 hall h
    rw [noLabel, List.all_cons] at hall
    rw [Bool.and_eq_true] at hall
    obtain ⟨h1, h2⟩ := hall
    rw [List.foldlM_cons] at h
    cases hap : applyLine d a with
    | error e => rw [hap] at h; simp [Bind.bind, Except.bind] at h
    | ok d1 =>
      rw [hap] at h
      simp only [Bind.bind, Except.bind] at h
      have hp := applyLine_ok_total d a d1 hap (by simpa using h1)
      rw [ih d1 d2 h2 h, hp]

/-- When a required numeric entry is absent from the dict, `finishLoad`
raises a `KeyError` naming an entry that is indeed absent. -/
theorem finishLoad_missing (d : PData)
    (hm : d.active_members = none ∨ d.offline_members = none ∨
      d.total_members = none) :
    ∃ f, finishLoad d = .error (.keyError f) ∧ fieldOf d f = none := by
  cases htm : d.total_members with
  | none =>
    refine ⟨"total_members", ?_, ?_⟩
    · unfold finishLoad; rw [htm]
    · unfold fieldOf
      rw [if_neg (by decide), if_neg (by decide), if_pos rfl]
      exact htm
  | some t =>
    cases ham : d.active_members with
    | none =>
      refine ⟨"active_members", ?_, ?_⟩
      · unfold finishLoad
        rw [htm, ham]
        by_cases h0 : t > 0 <;> simp [h0]
      · unfold fieldOf
        rw [if_pos rfl]
        exact ham
    | some a =>
      cases hom : d.offline_members with
      | none =>
        refine ⟨"offline_members", ?_, ?_⟩
        · unfold finishLoad
          rw [htm, ham, hom]
          by_cases h0 : t > 0 <;> simp [h0]
        · unfold fieldOf
          rw [if_neg (by decide), if_pos rfl]
          exact hom
      | some o => simp_all

/-! ### Structural lemmas about `analyze_communities` and `main` -/

/-- A successful analysis decomposes into a successful, non-empty record
collection whose rankings are returned. -/
theorem analyze_ok_elim (d : Option (List (String × List String)))
    (f : Option (List String)) (rs : List RankedRecord)
    (h : analyze_communities d f = .ok rs) :
    ∃ records, collect_records d f = .ok records ∧ records ≠ [] ∧
      rs = add_rankings records := by
  unfold analyze_communities at h
  cases hc : collect_records d f with
  | error e => rw [hc] at h; simp [Bind.bind, Except.bind] at h
  | ok records =>
    rw [hc] at h
    simp only [Bind.bind, Except.bind] at h
    by_cases he : records.isEmpty
    · rw [if_pos he] at h; simp at h
    · rw [if_neg he] at h
      injection h with h
      exact ⟨records, rfl, by simpa using he, h.symm⟩

/-! ### Claim theorems -/

/-- C2 (code evidence): the parser does NOT take everything after the
first colon — `line.split(":")[1]` is the piece between the first and the
second colon, so the value `https://discord.gg/abc` on a
`Community Link:` line is truncated to `https`, which differs from the
full value the claim requires. -/
theorem c2_colon_truncation :
    (load_data_from_lines
        ["Community Name: A", "Community Link: https://discord.gg/abc",
         "Total Active Members: 1", "Total Offline Members: 1",
         "Total Members: 2"]).map Record.link = .ok (some "https") ∧
      ("https" : String) ≠ "https://discord.gg/abc" :=
  ⟨by with_unfolding_all decide, by decide⟩

/-- C3 (counterexample): a block whose only recognized line is an
unparsable `Total Active Members: x` is missing the required
`total_members` field, yet parsing fails with the `ValueError` of
`int('x')`, not with an error identifying the missing field. -/
theorem c3_counterexample :
    load_data_from_lines ["Total Active Members: x"] =
        .error (.valueError "x") ∧
      (Except.error (PyErr.valueError "x") : Except PyErr Record) ≠
        .error (.keyError "total_members") :=
  ⟨by with_unfolding_all decide, by decide⟩

/-- C3 (amended): whenever one of the three required numeric labels is
absent from the block, parsing never returns a Record; and if the line
scan itself succeeds (no unparsable numeric value aborted it earlier),
the error is a `KeyError` naming a field that is indeed absent from the
parsed dict. -/
theorem c3_missing_field_fails (lines : List String)
    (h : noLabel lines "Total Active Members:" = true ∨
      noLabel lines "Total Offline Members:" = true ∨
      noLabel lines "Total Members:" = true) :
    (∀ r, load_data_from_lines lines ≠ .ok r) ∧
      ∀ d, scanLines lines = .ok d →
        ∃ f, load_data_from_lines lines = .error (.keyError f) ∧
          fieldOf d f = none := by
  have key : ∀ d, scanLines lines = .ok d →
      ∃ f, load_data_from_lines lines = .error (.keyError f) ∧
        fieldOf d f = none := by
    intro d hd
    have hd2 : lines.foldlM applyLine {} = .ok d := hd
    have hm : d.active_members = none ∨ d.offline_members = none ∨
        d.total_members = none := by
      rcases h with h | h | h
      · left
        rw [scan_preserves_active lines {} d h hd2]
      · right; left
        rw [scan_preserves_offline lines {} d h hd2]
      · right; right
        rw [scan_preserves_total lines {} d h hd2]
    obtain ⟨f, hf, hfo⟩ := finishLoad_missing d hm
    refine ⟨f, ?_, hfo⟩
    unfold load_data_from_lines
    rw [hd]
    simp [Bind.bind, Except.bind, hf]
  refine ⟨?_, key⟩
  intro r hr
  cases hs : scanLines lines with
  | error e =>
    unfold load_data_from_lines at hr
    rw [hs] at hr
    simp [Bind.bind, Except.bind] at hr
  | ok d =>
    obtain ⟨f, hf, -⟩ := key d hs
    rw [hf] at hr
    simp at hr

/-- C3 (witness): a block carrying only a community name yields no
Record. -/
theorem c3_missing_field_fails_witness :
    load_data_from_lines ["Community Name: A"] ≠ .ok exRecordA :=
  (c3_missing_field_fails ["Community Name: A"]
    (Or.inl (by with_unfolding_all decide))).1 exRecordA

/-- C4 (code evidence): Scenario B — the single record with
`total_members = 0` makes the single-community report path raise
`ZeroDivisionError` at the unguarded `active_members / total_members`
percentage; no `DegenerateCommunity` condition exists anywhere in the
code, and no report is returned. -/
theorem c4_zero_total_divides :
    (load_data_from_lines
        ["Community Name: Empty", "Total Active Members: 0",
         "Total Offline Members: 0", "Total Members: 0"]).bind
      generate_single_community_report = .error .zeroDivision := by
  with_unfolding_all decide

/-- C5 (counterexample): a parsed record with `active_members = 0` has
`active_ratio = 0`, which is not strictly greater than 0. -/
theorem c5_counterexample :
    (load_data_from_lines
        ["Community Name: Z", "Total Active Members: 0",
         "Total Offline Members: 5", "Total Members: 5"]).map
      Record.active_ratio = .ok 0 ∧ ¬ ((0 : ℚ) < 0) :=
  ⟨by with_unfolding_all decide, lt_irrefl 0⟩

/-- C5 (amended): for every Record the parser constructs from
non-negative `active_members` and `offline_members`, `active_ratio`
equals `active_members / (offline_members + 1)`; it is always defined
(the denominator is nonzero) and non-negative, and it is strictly
positive exactly when `active_members` is. -/
theorem c5_active_ratio_smoothing (lines : List String) (r : Record)
    (h : load_data_from_lines lines = .ok r)
    (ha : 0 ≤ r.active_members) (ho : 0 ≤ r.offline_members) :
    r.active_ratio = (r.active_members : ℚ) / ((r.offline_members : ℚ) + 1) ∧
      0 ≤ r.active_ratio ∧ (0 < r.active_ratio ↔ 0 < r.active_members) := by
  obtain ⟨d, hs, hf⟩ := load_ok_elim lines r h
  obtain ⟨-, -, -, -, -, -, -, hratio⟩ := finishLoad_ok_spec d r hf
  have hon : (0 : ℚ) ≤ (r.offline_members : ℚ) := by exact_mod_cast ho
  have hden : (0 : ℚ) < (r.offline_members : ℚ) + 1 := by linarith
  have han : (0 : ℚ) ≤ (r.active_members : ℚ) := by exact_mod_cast ha
  refine ⟨hratio, ?_, ?_, ?_⟩
  · rw [hratio]
    exact div_nonneg han hden.le
  · intro hp
    rw [hratio] at hp
    by_contra hc
    push_neg at hc
    have hc2 : (r.active_members : ℚ) ≤ 0 := by exact_mod_cast hc
    have : (r.active_members : ℚ) / ((r.offline_members : ℚ) + 1) ≤ 0 :=
      div_nonpos_of_nonpos_of_nonneg hc2 hden.le
    linarith
  · intro hp
    rw [hratio]
    have : (0 : ℚ) < (r.active_members : ℚ) := by exact_mod_cast hp
    exact div_pos this hden

/-- C5 (witness): the amended statement at a concrete record with
`offline_members = 0` (the smoothing case). -/
theorem c5_active_ratio_smoothing_witness :
    exRecordA.active_ratio =
        (exRecordA.active_members : ℚ) /
          ((exRecordA.offline_members : ℚ) + 1) ∧
      0 ≤ exRecordA.active_ratio ∧
        (0 < exRecordA.active_ratio ↔ 0 < exRecordA.active_members) :=
  c5_active_ratio_smoothing exLinesA exRecordA
    (by with_unfolding_all decide) (by decide) (by decide)

/-- C6: every Record the parser returns carries
`engagement_rate = active_members / total_members * 100` when
`total_members > 0` and `engagement_rate = 0` otherwise. -/
theorem c6_engagement_rate_formula (lines : List String) (r : Record)
    (h : load_data_from_lines lines = .ok r) :
    r.engagement_rate =
      if r.total_members > 0 then
        (r.active_members : ℚ) / (r.total_members : ℚ) * 100
      else 0 := by
  obtain ⟨d, hs, hf⟩ := load_ok_elim lines r h
  exact (finishLoad_ok_spec d r hf).2.2.2.2.2.2.1

/-- C6 (witness): the formula at a concrete parsed record. -/
theorem c6_engagement_rate_formula_witness :
    exRecordA.engagement_rate =
      if exRecordA.total_members > 0 then
        (exRecordA.active_members : ℚ) / (exRecordA.total_members : ℚ) * 100
      else 0 :=
  c6_engagement_rate_formula exLinesA exRecordA (by with_unfolding_all decide)

/-- C9 (code evidence): serializing a record whose link contains a colon
(`https://discord.gg/abc`, the canonical form of a Discord invite) and
re-parsing the serialized text yields a record whose other fields round
trip but whose link is truncated to `https`, not equal to the original. -/
theorem c9_roundtrip_fails :
    load_data_from_lines (reportLines (format_report
        { community_name := "MyServer", link := "https://discord.gg/abc",
          active_members := 10, offline_members := 20,
          total_members := 30 })) =
      .ok { community_name := some "MyServer", link := some "https",
            active_members := 10, offline_members := 20,
            total_members := 30, engagement_rate := 100 / 3,
            active_ratio := 10 / 21 } ∧
      (some "https" : Option String) ≠ some "https://discord.gg/abc" :=
  ⟨by with_unfolding_all decide, by decide⟩

/-- C10: every record the fetch path returns satisfies
`total_members = active_members + offline_members`, because
`scrape_discord_community` computes `offline_members` as
`total_members - active_members`. -/
theorem c10_fetch_additive (link : String) (m : Option String)
    (status : Int) (p : InvitePayload) (info : RawInfo)
    (h : scrape_discord_community link m status p = .ok info) :
    info.total_members = info.active_members + info.offline_members := by
  unfold scrape_discord_community at h
  cases m with
  | none => simp at h
  | some c =>
    by_cases hs : status ≠ 200
    · rw [if_pos hs] at h
      simp at h
    · rw [if_neg hs] at h
      injection h with h
      subst h
      show p.approximate_member_count =
        p.approximate_presence_count +
          (p.approximate_member_count - p.approximate_presence_count)
      omega

/-- C10 (witness): the additive identity at a concrete fetched payload. -/
theorem c10_fetch_additive_witness :
    (scrape_result "discord.gg/a" ⟨"G", 30, 10⟩).total_members =
      (scrape_result "discord.gg/a" ⟨"G", 30, 10⟩).active_members +
        (scrape_result "discord.gg/a" ⟨"G", 30, 10⟩).offline_members :=
  c10_fetch_additive "discord.gg/a" (some "a") 200 ⟨"G", 30, 10⟩ _
    (by with_unfolding_all decide)

/-- C7: every rank `analyze_communities` attaches — for each of the
three metric columns — equals the specification's descending
competition rank with tie averaging: the mean of the 1-based positions
the row's tie block occupies in the column sorted descending. -/
theorem c7_rank_tie_averaging (recs : List Record) (rr : RankedRecord)
    (h : rr ∈ add_rankings recs) :
    rr.size_rank =
        specMeanRank (recs.map fun s => ((s.total_members : ℚ)))
          ((rr.record.total_members : ℚ)) ∧
      rr.engagement_rank =
        specMeanRank (recs.map Record.engagement_rate)
          rr.record.engagement_rate ∧
      rr.activity_rank =
        specMeanRank (recs.map Record.active_ratio)
          rr.record.active_ratio := by
  unfold add_rankings at h
  obtain ⟨r, hr, rfl⟩ := List.mem_map.mp h
  refine ⟨?_, ?_, ?_⟩
  · simp only [rankOf]
    exact rank_desc_eq_specMeanRank _ _
      (List.mem_map_of_mem (fun s => ((s.total_members : ℚ))) hr)
  · simp only [rankOf]
    exact rank_desc_eq_specMeanRank _ _
      (List.mem_map_of_mem Record.engagement_rate hr)
  · simp only [rankOf]
    exact rank_desc_eq_specMeanRank _ _
      (List.mem_map_of_mem Record.active_ratio hr)

/-- C7 (witness): Scenario A — the two 50-member records tie on size and
both receive rank (2 + 3) / 2 = 2.5. -/
theorem c7_rank_tie_averaging_witness :
    ((rankOf scSet scR2).size_rank =
        specMeanRank (scSet.map fun s => ((s.total_members : ℚ)))
          (((rankOf scSet scR2).record.total_members : ℚ)) ∧
      (rankOf scSet scR2).engagement_rank =
        specMeanRank (scSet.map Record.engagement_rate)
          (rankOf scSet scR2).record.engagement_rate ∧
      (rankOf scSet scR2).activity_rank =
        specMeanRank (scSet.map Record.active_ratio)
          (rankOf scSet scR2).record.active_ratio) ∧
      (rankOf scSet scR2).size_rank = 5 / 2 :=
  ⟨c7_rank_tie_averaging scSet (rankOf scSet scR2)
      (by with_unfolding_all decide),
    by with_unfolding_all decide⟩

/-- C8: ranking attaches to the record, not to its input position — the
rank row computed for a record is invariant under permuting the record
set, and consequently the whole ranked table of a permuted set is the
permuted ranked table. -/
theorem c8_rank_perm_invariant (recs recs2 : List Record)
    (h : List.Perm recs recs2) :
    (∀ r : Record, rankOf recs r = rankOf recs2 r) ∧
      List.Perm (add_rankings recs) (add_rankings recs2) := by
  have h1 : ∀ (f : Record → ℚ) (x : ℚ),
      rank_desc (recs.map f) x = rank_desc (recs2.map f) x := by
    intro f x
    unfold rank_desc
    rw [(h.map f).countP_eq, (h.map f).countP_eq]
  have hfun : ∀ r : Record, rankOf recs r = rankOf recs2 r := by
    intro r
    unfold rankOf
    rw [h1, h1, h1]
  refine ⟨hfun, ?_⟩
  unfold add_rankings
  have heq : recs.map (rankOf recs) = recs.map (rankOf recs2) :=
    List.map_congr_left fun a _ => hfun a
  rw [heq]
  exact h.map _

/-- C8 (witness): permuting Scenario A's record set changes no rank. -/
theorem c8_rank_perm_invariant_witness :
    rankOf scSet scR2 = rankOf scSetPerm scR2 ∧
      List.Perm (add_rankings scSet) (add_rankings scSetPerm) :=
  ⟨(c8_rank_perm_invariant scSet scSetPerm
        (by with_unfolding_all decide)).1 scR2,
    (c8_rank_perm_invariant scSet scSetPerm
        (by with_unfolding_all decide)).2⟩

/-- C1 (counterexample): a directory containing exactly one record file
produces a RecordSet of cardinality one, yet `main` generates the
multi-community competitive report, because the dispatch looks at the
`-f` flag, not at the cardinality. -/
theorem c1_counterexample :
    main_run (some [("a.txt", exLinesA)]) none false =
        .report .competitive [exRankedA] ∧
      ([exRankedA] : List RankedRecord).length = 1 ∧
      Mode.competitive ≠ Mode.single :=
  ⟨by with_unfolding_all decide, rfl, by decide⟩

/-- C1 (amended): the entry point dispatches on the input source, not on
cardinality — a report is the single-community one exactly when the
`-f` flag was given (and the report's record set is never empty); when
only `-f` is given the record set has exactly one record; and a
directory with no `.txt` files fails with the `KeyError('total_members')`
of the ranking step rather than a dedicated EmptyInput error. -/
theorem c1_dispatch_by_source (d : Option (List (String × List String)))
    (f : Option (List String)) (u : Bool) :
    (∀ m recs, main_run d f u = .report m recs →
      ((m = Mode.single) ↔ f.isSome = true) ∧ recs ≠ []) ∧
      (d = none → ∀ m recs, main_run d f u = .report m recs →
        recs.length = 1) ∧
      (u = false → f = none → ∀ files, d = some files →
        (files.filter fun p => p.1.endsWith ".txt") = [] →
        main_run d f u = .err (.keyError "total_members")) := by
  refine ⟨?_, ?_, ?_⟩
  · intro m recs h
    unfold main_run at h
    by_cases hu : (u || (d.isNone && f.isNone)) = true
    · rw [if_pos hu] at h
      simp at h
    · rw [if_neg hu] at h
      cases ha : analyze_communities d f with
      | error e => rw [ha] at h; simp at h
      | ok rs =>
        rw [ha] at h
        injection h with hm hr
        subst hm
        obtain ⟨records, -, hne, hrs⟩ := analyze_ok_elim d f rs ha
        constructor
        · cases f with
          | none => simp
          | some l => simp
        · rw [← hr, hrs]
          unfold add_rankings
          simpa using hne
  · intro hd m recs h
    subst hd
    unfold main_run at h
    by_cases hu : (u || ((none : Option (List (String × List String))).isNone && f.isNone)) = true
    · rw [if_pos hu] at h
      simp at h
    · rw [if_neg hu] at h
      cases ha : analyze_communities none f with
      | error e => rw [ha] at h; simp at h
      | ok rs =>
        rw [ha] at h
        injection h with hm hr
        obtain ⟨records, hc, hne, hrs⟩ := analyze_ok_elim none f rs ha
        unfold collect_records at hc
        cases f with
        | none =>
          simp only [pure, Except.pure] at hc
          injection hc with hc
          exact absurd hc.symm hne
        | some lines =>
          simp only [Bind.bind, Except.bind] at hc
          cases hl : load_data_from_lines lines with
          | error e => rw [hl] at hc; simp at hc
          | ok r =>
            rw [hl] at hc
            simp only [pure, Except.pure] at hc
            injection hc with hc
            rw [← hr, hrs, ← hc]
            rfl
  · intro hu hf files hd hfil
    subst hu
    subst hf
    subst hd
    unfold main_run
    rw [if_neg (by simp)]
    have hc : collect_records (some files) none = .ok ([] : List Record) := by
      show ((files.filter fun f => f.1.endsWith ".txt").mapM fun f =>
        load_data_from_lines f.2) = .ok []
      rw [hfil]
      rfl
    have ha : analyze_communities (some files) none =
        .error (.keyError "total_members") := by
      unfold analyze_communities
      rw [hc]
      rfl
    rw [ha]

/-- C1 (witness): a single-file run reaches the single-community report
with a one-element record set. -/
theorem c1_dispatch_by_source_witness :
    ((Mode.single = Mode.single) ↔ (some exLinesA).isSome = true) ∧
      ([exRankedA] : List RankedRecord) ≠ [] :=
  (c1_dispatch_by_source none (some exLinesA) false).1 Mode.single
    [exRankedA] (by with_unfolding_all decide)

end DCIL
